import Mathlib

/-!
Shallow embedding of the mirror-synchronization engine in
src/sync_espelho.py, together with theorems settling the frozen claims
about its specification.

Conventions of the embedding:
- Machine timestamps (ISO 8601 strings in the source) are modelled as
  abstract totally ordered instants, `Nat`.  The Python code never
  compares two timestamps itself; ordering is enforced by the record
  store (query filter and sort), so it enters the theorems as
  hypotheses on the enumerated item list.
- Network calls are modelled as oracle functions returning
  `Except NotionErr _`; a raised Python exception is the `.error` case.
- Side effects (file saves, page patches, page creates) are recorded in
  an explicit operation trace so that ordering claims (for example,
  *the index file is flushed immediately after a create*) are visible
  in the model.
- Fractional retry delays (seconds) are modelled as `ℚ`.
-/

namespace SyncEspelho

/-! ### Checkpoint/Index store: `_save_json` (src/sync_espelho.py lines 88-98) -/

/-- `STATE_DIR` constant (line 12). -/
def STATE_DIR : String := ".state"

/-- `STATE_FILE` constant (line 13). -/
def STATE_FILE : String := ".state/mirror_state.json"

/-- `INDEX_FILE` constant (line 14). -/
def INDEX_FILE : String := ".state/mirror_index.json"

/-- File-system operations that a save routine can perform.  The
source only ever performs the first three; `renameOver` is in the
vocabulary so that the atomic write-temp-then-rename discipline of the
spec can be stated about the trace. -/
inductive FileOp
  | makedirs (dir : String)
  | openTrunc (path : String)
  | writeJson (path : String) (data : String)
  | renameOver (src : String) (dst : String)
deriving DecidableEq, Repr

/-- True exactly on the `renameOver` operation. -/
def FileOp.isRenameOp : FileOp → Bool
  | .renameOver _ _ => true
  | _ => false

/-- Trace of `_save_json(path, data)` (lines 95-98): it calls
`os.makedirs`, then opens `path` itself with mode "w" (truncating
overwrite of the target in place) and dumps the JSON into it.  No
temporary file and no rename appear in the source. -/
def save_json (path : String) (data : String) : List FileOp :=
  [FileOp.makedirs STATE_DIR, FileOp.openTrunc path, FileOp.writeJson path data]

/-- Modelled from the claim wording of C3, for comparison with
`save_json`: an atomic persistence writes the serialized JSON to a
temporary file and then renames it over the target path, and does not
open the target for overwrite in place. -/
def atomicTempThenRename (ops : List FileOp) (target : String) (data : String) : Prop :=
  ∃ tmp, tmp ≠ target ∧
    FileOp.writeJson tmp data ∈ ops ∧
    FileOp.renameOver tmp target ∈ ops ∧
    FileOp.openTrunc target ∉ ops

/-! ### Resilient request executor: `request_with_retry_url` (lines 114-154) -/

/-- Python `min` over ℚ, as used in `min(60, 2 ** attempt)` (line 132). -/
def pymin (a b : ℚ) : ℚ := if a ≤ b then a else b

/-- Python `max` over ℚ, as used in `max(wait, float(ra))` (line 136). -/
def pymax (a b : ℚ) : ℚ := if a ≤ b then b else a

/-- One HTTP response as the executor sees it: status code, parsed
body (the diagnostic message), and the optional `Retry-After` header
value. -/
structure HttpResponse where
  status : Nat
  body : String
  retryAfter : Option ℚ := none
deriving DecidableEq, Repr

/-- Retry condition of line 131: status 429 or any 5xx. -/
def retryableStatus (s : Nat) : Bool := decide (s = 429 ∨ (500 ≤ s ∧ s ≤ 599))

/-- The `requests` library predicate `r.ok`: status below 400. -/
def respOk (s : Nat) : Bool := decide (s < 400)

/-- Backoff delay of lines 132-138:
`wait = min(60, 2 ** attempt) + jitter`, raised to at least the
server-supplied Retry-After value when that header is present. -/
def backoffWait (attempt : Nat) (jitter : ℚ) (retryAfter : Option ℚ) : ℚ :=
  let w := pymin 60 (2 ^ attempt) + jitter
  match retryAfter with
  | some ra => pymax w ra
  | none => w

/-- Result of the executor.  `waits` records the sequence of backoff
sleeps performed before the terminal event, in order.
- `success`: a 2xx/3xx response; carries its body (line 152).
- `clientError`: a non-retryable error status; carries the response
  body, modelling the raised `HTTPError` with its attached
  `_notion_details` (lines 143-149).
- `exhausted`: the retry ceiling was exceeded; carries the message of
  the raised `RuntimeError`, which interpolates only the caller
  context string (line 154). -/
inductive ReqOutcome
  | success (body : String) (waits : List ℚ)
  | clientError (status : Nat) (body : String) (waits : List ℚ)
  | exhausted (message : String) (waits : List ℚ)
deriving DecidableEq, Repr

/-- Message of an `exhausted` outcome, if any. -/
def exhaustedMessage : ReqOutcome → Option String
  | .exhausted m _ => some m
  | _ => none

/-- Body carried by the outcome, if any. -/
def outcomeBody : ReqOutcome → Option String
  | .success b _ => some b
  | .clientError _ b _ => some b
  | .exhausted _ _ => none

/-- The attempt loop of lines 121-154.  `responses n` is the response
the store returns to attempt number `n`; `jitter n` is the value drawn
by `random.uniform(0, 0.6)` on that attempt; `fuel` is the number of
attempts still allowed.  Falling out of the loop raises
`RuntimeError("Falhou apos retries: " + context)` carrying only the
context string. -/
def requestAttempts (responses : Nat → HttpResponse) (jitter : Nat → ℚ)
    (context : String) : Nat → Nat → ReqOutcome
  | 0, _ => .exhausted ("Falhou apos retries: " ++ context) []
  | fuel + 1, attempt =>
    let r := responses attempt
    if retryableStatus r.status = true then
      let w := backoffWait attempt (jitter attempt) r.retryAfter
      match requestAttempts responses jitter context fuel (attempt + 1) with
      | .success b ws => .success b (w :: ws)
      | .clientError st b ws => .clientError st b (w :: ws)
      | .exhausted m ws => .exhausted m (w :: ws)
    else if respOk r.status = true then
      .success r.body []
    else
      .clientError r.status r.body []

/-- `request_with_retry_url` (line 120): `for attempt in
range(MAX_RETRIES + 1)` gives `maxRetries + 1` attempts starting at
attempt 0. -/
def request_with_retry_url (maxRetries : Nat) (responses : Nat → HttpResponse)
    (jitter : Nat → ℚ) (context : String) : ReqOutcome :=
  requestAttempts responses jitter context (maxRetries + 1) 0

/-- The backoff delays incurred by the first `k` (all retried)
attempts. -/
def waitsUpTo (responses : Nat → HttpResponse) (jitter : Nat → ℚ) (k : Nat) : List ℚ :=
  (List.range k).map (fun j => backoffWait j (jitter j) (responses j).retryAfter)

/-! ### Property transformer: `normalize_for_write` (lines 245-271) and
`get_status_options` (lines 206-212) -/

/-- One element of a Notion rich-text array as read by the source:
only its `plain_text` field is consulted (line 251). -/
structure RichTextItem where
  plain_text : String
deriving DecidableEq, Repr

/-- A source property value as `normalize_for_write` consults it: its
`type` tag string plus the payload fields the function can read.  The
`date` object is kept opaque (copied verbatim by line 257);
`status_name` models `(prop.get("status") or \x7b\x7d).get("name")`
(line 264), where `none` is an absent name and `some ""` an empty
one, both falsy in Python. -/
structure SrcProp where
  type : String
  date : Option String := none
  rich_text : List RichTextItem := []
  status_name : Option String := none
deriving DecidableEq, Repr

/-- Value placed into the write payload for one property.  A `none`
inside `statusVal` is the JSON null that clears the mirror status
(lines 266, 268). -/
inductive WriteValue
  | dateVal (d : Option String)
  | richTextVal (contents : List String)
  | statusVal (name : Option String)
deriving DecidableEq, Repr

/-- `rich_text_plain_text` (lines 250-251): concatenate the
`plain_text` fragments and strip. -/
def rich_text_plain_text (rt : List RichTextItem) : String :=
  (String.join (rt.map (fun x => x.plain_text))).trim

/-- `to_rich_text` (lines 245-248): empty text yields an empty array,
otherwise a single text fragment. -/
def to_rich_text (text : String) : List String :=
  if text = "" then [] else [text]

/-- `normalize_for_write` (lines 253-271), translated branch by
branch.  Only three type pairs have rules: date to date, rich_text to
rich_text (flattened to plain text), and status to status (written by
name, nulled when the name is falsy or not among the declared mirror
options).  Every other pair falls through to `none` (line 271), which
the caller treats as *skip this property*. -/
def normalize_for_write (prop : SrcProp) (target_type : String)
    (status_options_espelho : List String) : Option WriteValue :=
  let src_type := prop.type
  if target_type = "date" ∧ src_type = "date" then
    some (.dateVal prop.date)
  else if target_type = "rich_text" ∧ src_type = "rich_text" then
    some (.richTextVal (to_rich_text (rich_text_plain_text prop.rich_text)))
  else if target_type = "status" ∧ src_type = "status" then
    let name := prop.status_name.getD ""
    if name = "" then some (.statusVal none)
    else if status_options_espelho ≠ [] ∧ name ∉ status_options_espelho then
      some (.statusVal none)
    else some (.statusVal (some name))
  else
    none

/-- One declared option of a status property in a database schema
(`o.get("name")` may be absent). -/
structure StatusOption where
  name : Option String
deriving DecidableEq, Repr

/-- A schema property as `get_status_options` consults it. -/
structure SchemaProp where
  type : String
  status_options : List StatusOption := []
deriving DecidableEq, Repr

/-- `get_status_options` (lines 206-212): empty unless the property
exists and is status-typed; keeps only truthy option names. -/
def get_status_options (prop : Option SchemaProp) : List String :=
  match prop with
  | none => []
  | some p =>
    if p.type = "status" then
      ((p.status_options.filterMap (fun o => o.name)).filter (fun n => n ≠ ""))
    else []

/-! ### Error classification: `is_archived_edit_error` (lines 185-187) -/

/-- A store error as the sync loop sees it: the diagnostic message
extracted by `notion_error_message`. -/
structure NotionErr where
  message : String
deriving DecidableEq, Repr

/-- Lower-case a string character by character (Python `str.lower`
restricted to what the archived-error test needs). -/
def toLowerChars (s : String) : List Char := s.toList.map Char.toLower

/-- Substring test on character lists (Python `in` on strings). -/
def containsSub (hay pat : List Char) : Bool :=
  hay.tails.any (fun t => pat.isPrefixOf t)

/-- `is_archived_edit_error` (lines 185-187): the lowered message must
contain both "archived" and "can\x27t edit". -/
def is_archived_edit_error (e : NotionErr) : Bool :=
  containsSub (toLowerChars e.message) "archived".toList &&
  containsSub (toLowerChars e.message) "can\x27t edit".toList

/-! ### Core sync loop (lines 343-558) -/

/-- A source record as the loop consumes it: its id and its
`last_edited_time` (line 417 reads it with `.get`, hence optional). -/
structure SourcePage where
  id : String
  last_edited_time : Option Nat
deriving DecidableEq, Repr

/-- External calls made inside the loop, as oracle functions.
`lookup` is the reverse query issued by `find_mirror_by_relation`
(returns the page ids of the query result, in order); `patch` is the
properties update `PATCH /pages/mirror_id`; `create` is
`POST /pages`, returning the new page id. -/
structure Oracle where
  lookup : String → Except NotionErr (List String)
  patch : String → Except NotionErr Unit
  create : String → Except NotionErr String

/-- Requests and file writes issued by the engine, in order.
`patchProps` carries `setArchived = none` implicitly: a properties
update never touches the archived flag; `setArchived` is the cleanup
patch `\x7b"archived": b\x7d`; `deletePage` is in the vocabulary only
to state that the engine never hard-deletes. -/
inductive Op
  | lookupQuery (origem_id : String)
  | patchProps (espelho_id : String)
  | createPage (origem_id : String)
  | setArchived (espelho_id : String) (b : Bool)
  | deletePage (espelho_id : String)
  | saveIndexFile
  | saveStateFile
deriving DecidableEq, Repr

/-- Outcome of processing one source record (the counters of lines
406-410 record one of these per item). -/
inductive ItemOutcome
  | updatedPage
  | skippedArchivedUpdate
  | failedUpdate (e : NotionErr)
  | skippedCreate
  | createdPage (newId : String)
  | failedCreate (e : NotionErr)
deriving DecidableEq, Repr

/-- Configuration switches consumed by `sync`: `force_full` is the
`MIRROR_FORCE_FULL_SYNC` mode argument, the other two are the
module-level flags of lines 34 and 37, and `save_every_n` is
`SAVE_EVERY_N` (line 22). -/
structure SyncConfig where
  force_full : Bool
  full_sync_update_only : Bool
  full_sync_update_checkpoint : Bool
  save_every_n : Nat
deriving DecidableEq, Repr

/-- `env_bool` (lines 24-28): parse a boolean environment variable,
returning the default when the variable is unset. -/
def env_bool (v : Option String) (dflt : Bool) : Bool :=
  match v with
  | none => dflt
  | some s => decide (s.trim.toLower ∈ ["1", "true", "yes", "y", "on"])

/-- Mutable loop state of `sync` (lines 405-413), plus the operation
trace.  `idx` is the per-mirror index dict (origem_id to espelho_id),
modelled as an association list where an assignment prepends a binding
that shadows older ones. -/
structure LoopState where
  idx : List (String × String)
  last_sync_time : Option Nat
  created : Nat
  updated : Nat
  skipped_create : Nat
  skipped_archived : Nat
  failed_other : Nat
  processed : Nat
  newest_edited : Option Nat
  ops : List Op
deriving DecidableEq, Repr

/-- Fresh loop state for a run that starts from a persisted index and
watermark (lines 350-351, 405-413). -/
def initState (idx : List (String × String)) (last : Option Nat) : LoopState :=
  { idx := idx, last_sync_time := last, created := 0, updated := 0,
    skipped_create := 0, skipped_archived := 0, failed_other := 0,
    processed := 0, newest_edited := none, ops := [] }

/-- Lines 417-419: `newest_edited` is overwritten by every truthy
`last_edited_time` encountered, so it tracks the latest seen value. -/
def bumpNewest (cur : Option Nat) (t : Option Nat) : Option Nat :=
  match t with
  | some v => some v
  | none => cur

/-- `find_mirror_by_relation` (lines 329-338): the reverse query asks
for `page_size = 1` and adopts `results[0]["id"]`, the first match,
returning `None` when the result list is empty. -/
def find_mirror_by_relation (queryResults : List String) : Option String :=
  queryResults.head?

/-- Mirror-id resolution (lines 480-486): consult the index first; on
a miss issue the reverse query, adopt the first match and persist the
adopted mapping to the index file immediately.  A raised exception of
the reverse query propagates (there is no handler around these
lines). -/
def resolveMirrorId (g : Oracle) (idx : List (String × String)) (sid : String) :
    Except NotionErr (Option String × List (String × String) × List Op) :=
  match idx.lookup sid with
  | some mid => .ok (some mid, idx, [])
  | none =>
    match g.lookup sid with
    | .error e => .error e
    | .ok results =>
      match find_mirror_by_relation results with
      | some mid => .ok (some mid, (sid, mid) :: idx, [Op.lookupQuery sid, Op.saveIndexFile])
      | none => .ok (none, idx, [Op.lookupQuery sid])

/-- Per-item resolve-and-write (lines 480-522): resolution followed by
the guarded update/create.  Update failures are classified by
`is_archived_edit_error` (lines 497-504); in full-sync update-only
mode a missing mirror is skipped (lines 507-508); otherwise the
create path records the new id in the index and flushes the index
file immediately after the create (lines 510-517); a create failure
is caught by the outer handler (lines 519-522). -/
def processItem (cfg : SyncConfig) (g : Oracle) (idx : List (String × String))
    (sid : String) :
    Except NotionErr (List (String × String) × ItemOutcome × List Op) :=
  match resolveMirrorId g idx sid with
  | .error e => .error e
  | .ok (some mid, idx1, ops1) =>
    match g.patch mid with
    | .ok _ => .ok (idx1, .updatedPage, ops1 ++ [Op.patchProps mid])
    | .error e =>
      if is_archived_edit_error e = true then
        .ok (idx1, .skippedArchivedUpdate, ops1 ++ [Op.patchProps mid])
      else
        .ok (idx1, .failedUpdate e, ops1 ++ [Op.patchProps mid])
  | .ok (none, idx1, ops1) =>
    if cfg.force_full = true ∧ cfg.full_sync_update_only = true then
      .ok (idx1, .skippedCreate, ops1)
    else
      match g.create sid with
      | .ok newId =>
        .ok ((sid, newId) :: idx1, .createdPage newId, ops1 ++ [Op.createPage sid, Op.saveIndexFile])
      | .error e => .ok (idx1, .failedCreate e, ops1 ++ [Op.createPage sid])

/-- Counter bump for one item outcome (lines 496, 500, 502, 508, 516,
520). -/
def applyOutcome (s : LoopState) : ItemOutcome → LoopState
  | .updatedPage => { s with updated := s.updated + 1 }
  | .skippedArchivedUpdate => { s with skipped_archived := s.skipped_archived + 1 }
  | .failedUpdate _ => { s with failed_other := s.failed_other + 1 }
  | .skippedCreate => { s with skipped_create := s.skipped_create + 1 }
  | .createdPage _ => { s with created := s.created + 1 }
  | .failedCreate _ => { s with failed_other := s.failed_other + 1 }

/-- Periodic checkpoint (lines 524-536): every `SAVE_EVERY_N`
processed items, flush the watermark (incrementally always, in full
sync only when the checkpoint flag is set, and only when a newest
edit time exists) and then the index file. -/
def checkpoint (cfg : SyncConfig) (s : LoopState) : LoopState :=
  if s.processed % cfg.save_every_n = 0 then
    if cfg.force_full = false ∧ s.newest_edited.isSome = true then
      { s with last_sync_time := s.newest_edited,
               ops := s.ops ++ [Op.saveStateFile, Op.saveIndexFile] }
    else if cfg.force_full = true ∧ cfg.full_sync_update_checkpoint = true ∧
        s.newest_edited.isSome = true then
      { s with last_sync_time := s.newest_edited,
               ops := s.ops ++ [Op.saveStateFile, Op.saveIndexFile] }
    else
      { s with ops := s.ops ++ [Op.saveIndexFile] }
  else s

/-- One iteration of the `for p in changed` loop (lines 415-536). -/
def syncStep (cfg : SyncConfig) (g : Oracle) (s : LoopState) (p : SourcePage) :
    Except NotionErr LoopState :=
  match processItem cfg g s.idx p.id with
  | .error e => .error e
  | .ok (idx1, outcome, ops1) =>
    let s1 := applyOutcome
      { s with idx := idx1,
               newest_edited := bumpNewest s.newest_edited p.last_edited_time,
               ops := s.ops ++ ops1 } outcome
    .ok (checkpoint cfg { s1 with processed := s1.processed + 1 })

/-- Final flush (lines 538-548): when some edit time was seen, write
the watermark (incrementally always, in full sync only under the
checkpoint flag) and flush the index file. -/
def finalize (cfg : SyncConfig) (s : LoopState) : LoopState :=
  if s.newest_edited.isSome = true then
    if cfg.force_full = false then
      { s with last_sync_time := s.newest_edited,
               ops := s.ops ++ [Op.saveStateFile, Op.saveIndexFile] }
    else if cfg.full_sync_update_checkpoint = true then
      { s with last_sync_time := s.newest_edited,
               ops := s.ops ++ [Op.saveStateFile, Op.saveIndexFile] }
    else
      { s with ops := s.ops ++ [Op.saveIndexFile] }
  else s

/-- The whole item loop followed by the final flush (lines 415-548).
An uncaught exception inside an iteration aborts the run with that
error. -/
def syncItems (cfg : SyncConfig) (g : Oracle) :
    LoopState → List SourcePage → Except NotionErr LoopState
  | s, [] => .ok (finalize cfg s)
  | s, p :: rest =>
    match syncStep cfg g s p with
    | .error e => .error e
    | .ok s1 => syncItems cfg g s1 rest

/-- The value `newest_edited` holds after folding lines 417-419 over a
list of items, starting from `cur`. -/
def lastEdited : Option Nat → List SourcePage → Option Nat
  | cur, [] => cur
  | cur, p :: rest => lastEdited (bumpNewest cur p.last_edited_time) rest

/-- Boolean test that an `Except` is a success. -/
def isOkE {ε α : Type} : Except ε α → Bool
  | .ok _ => true
  | .error _ => false

/-! ### Orphan cleanup: `cleanup_orphans` (lines 563-635) -/

/-- A mirror page as the cleanup pass reads it: its id and the list of
entry ids of its origin-relation value (`rel_list`, each entry read
with `.get("id")`, hence optional). -/
structure MirrorPage where
  id : String
  relation_ids : List (Option String)
deriving DecidableEq, Repr

/-- Per-page decision of lines 598-615: an empty relation leaves the
page untouched; otherwise the first entry is examined and, when its id
is present and absent from the loaded source-id set, the page is
archived via `PATCH archived=true`. -/
def cleanupPageOps (origin_ids : List String) (m : MirrorPage) : List Op :=
  match m.relation_ids with
  | [] => []
  | first :: _ =>
    match first with
    | none => []
    | some oid => if oid ∈ origin_ids then [] else [Op.setArchived m.id true]

/-- The cleanup pass over the whole mirror collection (lines 589-633):
archive requests for orphans, then the state-file flush (line 625),
then the index prune that deletes every mapping whose source id is no
longer present (lines 628-633), then the index-file flush.  Returns
the operation trace and the pruned index. -/
def cleanup_orphans_run (origin_ids : List String) (mirrors : List MirrorPage)
    (idx : List (String × String)) : List Op × List (String × String) :=
  ((mirrors.map (cleanupPageOps origin_ids)).flatten ++ [Op.saveStateFile, Op.saveIndexFile],
   idx.filter (fun e => decide (e.1 ∈ origin_ids)))

/-! ### Concrete instances used by witnesses and counterexamples -/

/-- Default configuration: incremental mode, all full-sync flags at
their `env_bool` defaults, `SAVE_EVERY_N` at its default 10. -/
def cfgDefault : SyncConfig :=
  { force_full := env_bool none false,
    full_sync_update_only := env_bool none false,
    full_sync_update_checkpoint := env_bool none false,
    save_every_n := 10 }

/-- Full-sync configuration with the checkpoint flag at its `env_bool`
default (unset environment). -/
def cfgFull : SyncConfig :=
  { force_full := true,
    full_sync_update_only := false,
    full_sync_update_checkpoint := env_bool none false,
    save_every_n := 10 }

/-- A store in which every reverse query finds the mirror page m1 and
every write succeeds. -/
def oracleOk : Oracle :=
  { lookup := fun _ => .ok ["m1"],
    patch := fun _ => .ok (),
    create := fun sid => .ok ("new-" ++ sid) }

/-- A store whose reverse query raises (for example a RuntimeError
after exhausted retries) while writes would succeed. -/
def oracleLookupFails : Oracle :=
  { lookup := fun _ => .error { message := "Falhou apos retries: Lookup espelho" },
    patch := fun _ => .ok (),
    create := fun sid => .ok ("new-" ++ sid) }

/-- A store whose update calls fail with a non-archived validation
error. -/
def oraclePatchFails : Oracle :=
  { lookup := fun _ => .ok ["m1"],
    patch := fun _ => .error { message := "body failed validation" },
    create := fun sid => .ok ("new-" ++ sid) }

/-- The archived-edit rejection message the store returns for updates
to archived pages. -/
def archErr : NotionErr := { message := "Can\x27t edit block that is archived." }

/-- A store whose update calls are rejected because the target page is
archived. -/
def oracleArchived : Oracle :=
  { lookup := fun _ => .ok [],
    patch := fun _ => .error archErr,
    create := fun sid => .ok ("new-" ++ sid) }

/-- Two source records with ascending edit times, strictly after the
demo watermark 3. -/
def demoItems : List SourcePage := [{ id := "s1", last_edited_time := some 5 },
                                    { id := "s2", last_edited_time := some 7 }]

/-- Final state of the demo incremental run (watermark 3, succeeding
store). -/
def demoFinal : LoopState :=
  (syncItems cfgDefault oracleOk (initState [] (some 3)) demoItems).toOption.getD
    (initState [] none)

/-- Final state of the demo full-sync run under the default checkpoint
flag. -/
def demoFullFinal : LoopState :=
  (syncItems cfgFull oracleOk (initState [] (some 3)) demoItems).toOption.getD
    (initState [] none)

/-- Demo response schedule: one rate-limited attempt carrying a
Retry-After hint, then success. -/
def rspDemo : Nat → HttpResponse :=
  fun n =>
    if n = 0 then { status := 429, body := "busy", retryAfter := some 3 }
    else { status := 200, body := "done" }

/-! ## Theorems -/

/-- C3 counterexample: the save routine of the checkpoint/index store
is not atomic.  At the concrete save of the state file, the trace of
`_save_json` contains no write to a temporary file followed by a
rename over the target; it opens the target itself for truncating
overwrite. -/
theorem C3_counterexample :
    ¬ atomicTempThenRename (save_json STATE_FILE "x") STATE_FILE "x" := by
  rintro ⟨tmp, hne, hw, hr, -⟩
  simp [save_json] at hr

/-- C3 amended: every persistence of the state blob and of the index
writes the serialized JSON directly to the target path, opening and
overwriting the target file in place, with no temporary file and no
rename. -/
theorem C3_save_overwrites_in_place (path data : String) :
    save_json path data =
      [FileOp.makedirs STATE_DIR, FileOp.openTrunc path, FileOp.writeJson path data] ∧
    (save_json path data).all (fun op => !op.isRenameOp) = true :=
  ⟨rfl, rfl⟩

/-- C7 counterexample: the property transformer defines no same-type
passthrough rule for booleans, numeric scalars, URI scalars,
single-choice enumerations other than status, multi-choice sets, or
relation references: all of these type pairs fall through to the skip
branch. -/
theorem C7_counterexample :
    normalize_for_write { type := "checkbox" } "checkbox" [] = none ∧
    normalize_for_write { type := "number" } "number" [] = none ∧
    normalize_for_write { type := "url" } "url" [] = none ∧
    normalize_for_write { type := "select" } "select" [] = none ∧
    normalize_for_write { type := "multi_select" } "multi_select" [] = none ∧
    normalize_for_write { type := "relation" } "relation" [] = none := by
  refine ⟨?_, ?_, ?_, ?_, ?_, ?_⟩ <;> rfl

/-- C7 amended: the property transformer defines same-type rules for
exactly three type pairs: date ranges copied verbatim, text blocks
flattened to plain text, and status values written by name; any other
source field type pair is skipped (the payload omits the field), never
forwarded. -/
theorem C7_passthrough_rules (prop : SrcProp) (target : String) (opts : List String) :
    (target = "date" → prop.type = "date" →
      normalize_for_write prop target opts = some (WriteValue.dateVal prop.date)) ∧
    (target = "rich_text" → prop.type = "rich_text" →
      normalize_for_write prop target opts =
        some (WriteValue.richTextVal (to_rich_text (rich_text_plain_text prop.rich_text)))) ∧
    (target = "status" → prop.type = "status" →
      ∃ v, normalize_for_write prop target opts = some (WriteValue.statusVal v)) ∧
    (¬ ((target = "date" ∧ prop.type = "date") ∨
        (target = "rich_text" ∧ prop.type = "rich_text") ∨
        (target = "status" ∧ prop.type = "status")) →
      normalize_for_write prop target opts = none) := by
  refine ⟨?_, ?_, ?_, ?_⟩
  · intro h1 h2
    simp [normalize_for_write, h1, h2]
  · intro h1 h2
    simp [normalize_for_write, h1, h2]
  · intro h1 h2
    subst h1
    simp only [normalize_for_write, h2]
    rw [if_neg (by decide), if_neg (by decide), if_pos (by decide)]
    by_cases hn : (prop.status_name.getD "") = ""
    · exact ⟨none, by rw [if_pos hn]⟩
    · by_cases ho : opts ≠ [] ∧ (prop.status_name.getD "") ∉ opts
      · exact ⟨none, by rw [if_neg hn, if_pos ho]⟩
      · exact ⟨some (prop.status_name.getD ""), by rw [if_neg hn, if_neg ho]⟩
  · intro h
    have h1 : ¬ (target = "date" ∧ prop.type = "date") := fun hc => h (Or.inl hc)
    have h2 : ¬ (target = "rich_text" ∧ prop.type = "rich_text") := fun hc => h (Or.inr (Or.inl hc))
    have h3 : ¬ (target = "status" ∧ prop.type = "status") := fun hc => h (Or.inr (Or.inr hc))
    simp only [normalize_for_write]
    rw [if_neg h1, if_neg h2, if_neg h3]

/-- C7 witness: a concrete unmatched type pair is skipped. -/
theorem C7_witness :
    normalize_for_write { type := "email" } "email" [] = none :=
  (C7_passthrough_rules { type := "email" } "email" []).2.2.2 (by decide)

/-- C10: a status field whose source name is falsy, or whose name is
not among a non-empty set of declared mirror status options, is
written as an explicit null (clearing the mirror value), not written
by name and not omitted from the payload. -/
theorem C10_unknown_status_written_null (prop : SrcProp) (opts : List String)
    (htype : prop.type = "status")
    (hbad : prop.status_name.getD "" = "" ∨
      (opts ≠ [] ∧ prop.status_name.getD "" ∉ opts)) :
    normalize_for_write prop "status" opts = some (WriteValue.statusVal none) := by
  simp only [normalize_for_write, htype]
  rw [if_neg (by decide), if_neg (by decide), if_pos (by decide)]
  rcases hbad with hb | hb
  · rw [if_pos hb]
  · by_cases hn : prop.status_name.getD "" = ""
    · rw [if_pos hn]
    · rw [if_neg hn, if_pos hb]

/-- C10 witness: a source status name absent from the declared mirror
options is cleared to null. -/
theorem C10_witness :
    normalize_for_write { type := "status", status_name := some "Weird" } "status"
      ["Aberto", "Concluido"] = some (WriteValue.statusVal none) :=
  C10_unknown_status_written_null _ _ rfl (Or.inr (by decide))

/-- Shifting a mapped range by one: the delay list over `k + 1`
attempts starting at `a` is the delay of attempt `a` followed by the
delays over `k` attempts starting at `a + 1`. -/
theorem range_map_succ_shift (f : Nat → ℚ) (k a : Nat) :
    (List.range (k + 1)).map (fun j => f (a + j)) =
      f a :: (List.range k).map (fun j => f (a + 1 + j)) := by
  rw [List.range_succ_eq_map, List.map_cons, List.map_map]
  refine congrArg₂ _ (by rw [Nat.add_zero]) ?_
  apply List.map_congr_left
  intro j hj
  simp only [Function.comp_apply]
  congr 1
  omega

/-- Stopping behaviour of the attempt loop: after `k` retried
attempts, a non-retryable response ends the loop, with the accumulated
delays being exactly the backoff of each retried attempt. -/
theorem requestAttempts_stop (jitter : Nat → ℚ) (context : String) :
    ∀ (k fuel attempt : Nat) (responses : Nat → HttpResponse), k < fuel →
      (∀ j, j < k → retryableStatus (responses (attempt + j)).status = true) →
      retryableStatus (responses (attempt + k)).status = false →
      requestAttempts responses jitter context fuel attempt =
        (if respOk (responses (attempt + k)).status = true then
          ReqOutcome.success (responses (attempt + k)).body
            ((List.range k).map (fun j =>
              backoffWait (attempt + j) (jitter (attempt + j)) (responses (attempt + j)).retryAfter))
        else
          ReqOutcome.clientError (responses (attempt + k)).status (responses (attempt + k)).body
            ((List.range k).map (fun j =>
              backoffWait (attempt + j) (jitter (attempt + j)) (responses (attempt + j)).retryAfter))) := by
  intro k
  induction k with
  | zero =>
    intro fuel attempt responses hk hret hstop
    obtain ⟨f, rfl⟩ : ∃ f, fuel = f + 1 := ⟨fuel - 1, by omega⟩
    rw [Nat.add_zero] at hstop
    simp [requestAttempts, hstop]
  | succ k ih =>
    intro fuel attempt responses hk hret hstop
    obtain ⟨f, rfl⟩ : ∃ f, fuel = f + 1 := ⟨fuel - 1, by omega⟩
    have h0 : retryableStatus (responses attempt).status = true := by
      simpa using hret 0 (Nat.succ_pos k)
    have hidx : attempt + (k + 1) = attempt + 1 + k := by omega
    have hrec := ih f (attempt + 1) responses (by omega)
      (fun j hj => by
        have := hret (j + 1) (by omega)
        simpa [show attempt + (j + 1) = attempt + 1 + j by omega] using this)
      (by rw [← hidx]; exact hstop)
    simp only [requestAttempts, h0, if_true]
    rw [hrec]
    rw [hidx]
    rw [range_map_succ_shift (fun i =>
      backoffWait i (jitter i) (responses i).retryAfter) k attempt]
    by_cases hok : respOk (responses (attempt + 1 + k)).status = true
    · rw [if_pos hok, if_pos hok]
    · rw [if_neg hok, if_neg hok]

/-- Exhaustion behaviour of the attempt loop: when every allowed
attempt is retried, the loop falls out with the context-only fatal
message and one backoff delay per attempt. -/
theorem requestAttempts_exhaust (jitter : Nat → ℚ) (context : String) :
    ∀ (fuel attempt : Nat) (responses : Nat → HttpResponse),
      (∀ j, j < fuel → retryableStatus (responses (attempt + j)).status = true) →
      requestAttempts responses jitter context fuel attempt =
        ReqOutcome.exhausted ("Falhou apos retries: " ++ context)
          ((List.range fuel).map (fun j =>
            backoffWait (attempt + j) (jitter (attempt + j)) (responses (attempt + j)).retryAfter)) := by
  intro fuel
  induction fuel with
  | zero => intro attempt responses h; simp [requestAttempts]
  | succ f ih =>
    intro attempt responses h
    have h0 : retryableStatus (responses attempt).status = true := by
      simpa using h 0 (Nat.succ_pos f)
    have hrec := ih (attempt + 1) responses (fun j hj => by
      have := h (j + 1) (by omega)
      simpa [show attempt + (j + 1) = attempt + 1 + j by omega] using this)
    simp only [requestAttempts, h0, if_true]
    rw [hrec]
    rw [range_map_succ_shift (fun i =>
      backoffWait i (jitter i) (responses i).retryAfter) f attempt]

/-- C4 counterexample: exceeding the retry ceiling does not raise an
error carrying the last response body.  Two response schedules that
differ in the body of the final attempt produce identical outcomes;
the raised fatal error interpolates only the caller context, and the
outcome carries no body at all. -/
theorem C4_counterexample :
    (request_with_retry_url 1 (fun _ => { status := 429, body := "last body A" })
        (fun _ => 0) "Update espelho" =
      request_with_retry_url 1
        (fun n => { status := 429, body := if n = 1 then "last body B" else "last body A" })
        (fun _ => 0) "Update espelho")
    ∧ ((fun n => ({ status := 429, body := if n = 1 then "last body B" else "last body A" } :
          HttpResponse)) 1
        ≠ (fun _ => ({ status := 429, body := "last body A" } : HttpResponse)) 1)
    ∧ exhaustedMessage (request_with_retry_url 1
        (fun _ => { status := 429, body := "last body A" }) (fun _ => 0) "Update espelho") =
        some ("Falhou apos retries: " ++ "Update espelho")
    ∧ outcomeBody (request_with_retry_url 1
        (fun _ => { status := 429, body := "last body A" }) (fun _ => 0) "Update espelho") =
        none :=
  ⟨rfl, by decide, rfl, rfl⟩

/-- C4 amended: a response with status 429 or 5xx triggers a retry
after a delay of `min(60, 2 ^ attempt)` plus random jitter, raised to
at least a server-supplied Retry-After value when present; any other
non-success status propagates immediately, without retrying, carrying
the response body; retries stop at the configured attempt ceiling, and
exceeding the ceiling raises a fatal error that carries the request
context description (not the last response body). -/
theorem C4_retry_policy (maxRetries : Nat) (responses : Nat → HttpResponse)
    (jitter : Nat → ℚ) (context : String) :
    (∀ k, k ≤ maxRetries →
      (∀ j, j < k → retryableStatus (responses j).status = true) →
      retryableStatus (responses k).status = false →
      request_with_retry_url maxRetries responses jitter context =
        (if respOk (responses k).status = true then
          ReqOutcome.success (responses k).body (waitsUpTo responses jitter k)
        else
          ReqOutcome.clientError (responses k).status (responses k).body
            (waitsUpTo responses jitter k)))
    ∧ ((∀ j, j ≤ maxRetries → retryableStatus (responses j).status = true) →
      request_with_retry_url maxRetries responses jitter context =
        ReqOutcome.exhausted ("Falhou apos retries: " ++ context)
          (waitsUpTo responses jitter (maxRetries + 1))) := by
  constructor
  · intro k hk hret hstop
    have h := requestAttempts_stop jitter context k (maxRetries + 1) 0 responses
      (by omega) (by simpa using hret) (by simpa using hstop)
    simpa [request_with_retry_url, waitsUpTo] using h
  · intro hall
    have h := requestAttempts_exhaust jitter context (maxRetries + 1) 0 responses
      (by intro j hj; simpa using hall j (by omega))
    simpa [request_with_retry_url, waitsUpTo] using h

/-- C4 witness: a rate-limited first attempt with a Retry-After hint
followed by a success makes exactly two requests and succeeds with the
body of the second response. -/
theorem C4_witness :
    request_with_retry_url 8 rspDemo (fun _ => 1/2) "ctx" =
      ReqOutcome.success "done" (waitsUpTo rspDemo (fun _ => 1/2) 1) := by
  have h := (C4_retry_policy 8 rspDemo (fun _ => 1/2) "ctx").1 1 (by omega)
    (by decide) (by decide)
  rw [h, if_pos (by decide)]
  rfl

/-- C1: for every enumerated source record, the upsert resolver (a)
uses the persisted index when it holds a mapping, issuing no reverse
query; (b) on an index miss performs the reverse query, adopts the
first match and persists the adopted mapping to the index file
immediately; (c) creates a new mirror record only when neither
resolves (and creation is not disabled), recording the new id in the
index and flushing the index file immediately after the create; and
(d) when an id resolves, patches that record and never creates. -/
theorem C1_upsert_resolution (cfg : SyncConfig) (g : Oracle)
    (idx : List (String × String)) (sid : String) :
    (∀ mid, idx.lookup sid = some mid →
      resolveMirrorId g idx sid = .ok (some mid, idx, []))
    ∧ (∀ mid rest, idx.lookup sid = none → g.lookup sid = .ok (mid :: rest) →
      resolveMirrorId g idx sid =
        .ok (some mid, (sid, mid) :: idx, [Op.lookupQuery sid, Op.saveIndexFile]))
    ∧ (∀ newId, idx.lookup sid = none → g.lookup sid = .ok [] →
      ¬ (cfg.force_full = true ∧ cfg.full_sync_update_only = true) →
      g.create sid = .ok newId →
      processItem cfg g idx sid =
        .ok ((sid, newId) :: idx, .createdPage newId,
          [Op.lookupQuery sid, Op.createPage sid, Op.saveIndexFile]))
    ∧ (∀ mid idx1 ops1, resolveMirrorId g idx sid = .ok (some mid, idx1, ops1) →
      ∃ out, processItem cfg g idx sid = .ok (idx1, out, ops1 ++ [Op.patchProps mid]) ∧
        ∀ x, out ≠ ItemOutcome.createdPage x) := by
  refine ⟨?_, ?_, ?_, ?_⟩
  · intro mid h
    simp [resolveMirrorId, h]
  · intro mid rest h1 h2
    simp [resolveMirrorId, h1, h2, find_mirror_by_relation]
  · intro newId h1 h2 hno hc
    simp [processItem, resolveMirrorId, h1, h2, find_mirror_by_relation, hno, hc]
  · intro mid idx1 ops1 hres
    cases hp : g.patch mid with
    | ok u =>
      exact ⟨.updatedPage, by simp [processItem, hres, hp], by intro x h; cases h⟩
    | error e =>
      by_cases ha : is_archived_edit_error e = true
      · exact ⟨.skippedArchivedUpdate, by simp [processItem, hres, hp, ha],
          by intro x h; cases h⟩
      · exact ⟨.failedUpdate e, by simp [processItem, hres, hp, ha],
          by intro x h; cases h⟩

/-- C1 witness: with an empty index and a reverse query that finds a
mirror page, the resolver adopts the first match and immediately
flushes the index file. -/
theorem C1_witness :
    resolveMirrorId oracleOk [] "s1" =
      .ok (some "m1", [("s1", "m1")], [Op.lookupQuery "s1", Op.saveIndexFile]) :=
  (C1_upsert_resolution cfgDefault oracleOk [] "s1").2.1 "m1" [] rfl rfl

/-- Per-item processing never raises when the reverse query does not
raise: every update or create failure is converted into an item
outcome. -/
theorem processItem_total (cfg : SyncConfig) (g : Oracle)
    (idx : List (String × String)) (sid : String)
    (h : isOkE (g.lookup sid) = true) :
    ∃ r, processItem cfg g idx sid = .ok r := by
  cases hl : idx.lookup sid with
  | some mid =>
    cases hp : g.patch mid with
    | ok u => simp [processItem, resolveMirrorId, hl, hp]
    | error e =>
      by_cases ha : is_archived_edit_error e = true
      · simp [processItem, resolveMirrorId, hl, hp, ha]
      · simp [processItem, resolveMirrorId, hl, hp, ha]
  | none =>
    cases hg : g.lookup sid with
    | error e => rw [hg] at h; cases h
    | ok results =>
      cases results with
      | nil =>
        by_cases hf : cfg.force_full = true ∧ cfg.full_sync_update_only = true
        · simp [processItem, resolveMirrorId, hl, hg, find_mirror_by_relation, hf]
        · cases hc : g.create sid with
          | ok newId => simp [processItem, resolveMirrorId, hl, hg,
              find_mirror_by_relation, hf, hc]
          | error e => simp [processItem, resolveMirrorId, hl, hg,
              find_mirror_by_relation, hf, hc]
      | cons mid rest =>
        cases hp : g.patch mid with
        | ok u => simp [processItem, resolveMirrorId, hl, hg,
            find_mirror_by_relation, hp]
        | error e =>
          by_cases ha : is_archived_edit_error e = true
          · simp [processItem, resolveMirrorId, hl, hg,
              find_mirror_by_relation, hp, ha]
          · simp [processItem, resolveMirrorId, hl, hg,
              find_mirror_by_relation, hp, ha]

/-- One loop iteration never raises when the reverse query does not
raise. -/
theorem syncStep_total (cfg : SyncConfig) (g : Oracle) (s : LoopState) (p : SourcePage)
    (h : isOkE (g.lookup p.id) = true) :
    ∃ s1, syncStep cfg g s p = .ok s1 := by
  obtain ⟨r, hr⟩ := processItem_total cfg g s.idx p.id h
  obtain ⟨idx1, outcome, ops1⟩ := r
  simp only [syncStep, hr]
  exact ⟨_, rfl⟩

/-- C5 counterexample: a failure affecting a single item during
mirror-id resolution aborts the whole run.  With one source record,
an empty index and a reverse query that raises, the sync loop
propagates the error instead of counting the item as failed and
continuing. -/
theorem C5_counterexample :
    syncItems cfgDefault oracleLookupFails (initState [] none)
        [{ id := "s1", last_edited_time := some 5 }] =
      .error { message := "Falhou apos retries: Lookup espelho" } := rfl

/-- C5 amended: a failure in the create/update call for a single item
never aborts the run — the item is counted as failed or skipped and
the loop continues — but a failure during mirror-id resolution (the
reverse query) propagates and aborts the run: whenever every reverse
query succeeds, the run completes no matter how the patch and create
calls behave. -/
theorem C5_write_failures_contained (cfg : SyncConfig) (g : Oracle)
    (hlookup : ∀ sid, isOkE (g.lookup sid) = true) :
    ∀ (items : List SourcePage) (s : LoopState),
      isOkE (syncItems cfg g s items) = true := by
  intro items
  induction items with
  | nil => intro s; rfl
  | cons p rest ih =>
    intro s
    obtain ⟨s1, hs1⟩ := syncStep_total cfg g s p (hlookup p.id)
    simp [syncItems, hs1, ih s1]

/-- C5 witness: a run whose update calls all fail with a validation
error still completes. -/
theorem C5_witness :
    isOkE (syncItems cfgDefault oraclePatchFails (initState [] none)
      [{ id := "s1", last_edited_time := some 5 }]) = true :=
  C5_write_failures_contained cfgDefault oraclePatchFails (fun _ => rfl)
    [{ id := "s1", last_edited_time := some 5 }] (initState [] none)

/-- Every per-page cleanup decision is either to leave the page alone
or to archive it. -/
theorem cleanupPageOps_shape (origin_ids : List String) (m : MirrorPage) :
    cleanupPageOps origin_ids m = [] ∨
    cleanupPageOps origin_ids m = [Op.setArchived m.id true] := by
  cases hrel : m.relation_ids with
  | nil => exact Or.inl (by simp [cleanupPageOps, hrel])
  | cons first rest =>
    cases first with
    | none => exact Or.inl (by simp [cleanupPageOps, hrel])
    | some oid =>
      by_cases h : oid ∈ origin_ids
      · exact Or.inl (by simp [cleanupPageOps, hrel, h])
      · exact Or.inr (by simp [cleanupPageOps, hrel, h])

/-- C6: a failed update whose store error message indicates an
archived record is counted as skipped-archived: the item outcome is
the skip (not a failure), the update request is issued exactly once
(no retry at the loop level), the skip bumps only the
skipped-archived counter, and no operation of the sync loop or of the
cleanup pass ever un-archives a page. -/
theorem C6_archived_update_skipped (cfg : SyncConfig) (g : Oracle)
    (idx : List (String × String)) (sid mid : String) (e : NotionErr) :
    (idx.lookup sid = some mid → g.patch mid = .error e →
      is_archived_edit_error e = true →
      processItem cfg g idx sid =
        .ok (idx, .skippedArchivedUpdate, [Op.patchProps mid]))
    ∧ (∀ s : LoopState, applyOutcome s .skippedArchivedUpdate =
        { s with skipped_archived := s.skipped_archived + 1 })
    ∧ (∀ r, processItem cfg g idx sid = .ok r →
        ∀ pid b, Op.setArchived pid b ∉ r.2.2)
    ∧ (∀ (origin_ids : List String) (mirrors : List MirrorPage)
        (idx2 : List (String × String)) (pid : String),
        Op.setArchived pid false ∉ (cleanup_orphans_run origin_ids mirrors idx2).1) := by
  refine ⟨?_, ?_, ?_, ?_⟩
  · intro h1 h2 h3
    simp [processItem, resolveMirrorId, h1, h2, h3]
  · intro s
    rfl
  · intro r hr pid b
    cases hl : idx.lookup sid with
    | some mid2 =>
      cases hp : g.patch mid2 with
      | ok u =>
        simp [processItem, resolveMirrorId, hl, hp] at hr
        simp [← hr]
      | error e2 =>
        by_cases ha : is_archived_edit_error e2 = true
        · simp [processItem, resolveMirrorId, hl, hp, ha] at hr
          simp [← hr]
        · simp [processItem, resolveMirrorId, hl, hp, ha] at hr
          simp [← hr]
    | none =>
      cases hg : g.lookup sid with
      | error e2 => simp [processItem, resolveMirrorId, hl, hg] at hr
      | ok results =>
        cases results with
        | nil =>
          by_cases hf : cfg.force_full = true ∧ cfg.full_sync_update_only = true
          · simp [processItem, resolveMirrorId, hl, hg, find_mirror_by_relation, hf] at hr
            simp [← hr]
          · cases hc : g.create sid with
            | ok newId =>
              simp [processItem, resolveMirrorId, hl, hg, find_mirror_by_relation,
                hf, hc] at hr
              simp [← hr]
            | error e2 =>
              simp [processItem, resolveMirrorId, hl, hg, find_mirror_by_relation,
                hf, hc] at hr
              simp [← hr]
        | cons mid2 rest =>
          cases hp : g.patch mid2 with
          | ok u =>
            simp [processItem, resolveMirrorId, hl, hg, find_mirror_by_relation, hp] at hr
            simp [← hr]
          | error e2 =>
            by_cases ha : is_archived_edit_error e2 = true
            · simp [processItem, resolveMirrorId, hl, hg, find_mirror_by_relation,
                hp, ha] at hr
              simp [← hr]
            · simp [processItem, resolveMirrorId, hl, hg, find_mirror_by_relation,
                hp, ha] at hr
              simp [← hr]
  · intro origin_ids mirrors idx2 pid hmem
    simp only [cleanup_orphans_run] at hmem
    rcases List.mem_append.mp hmem with hA | hB
    · rcases List.mem_flatten.mp hA with ⟨l, hl, hin⟩
      rcases List.mem_map.mp hl with ⟨m, hm, rfl⟩
      rcases cleanupPageOps_shape origin_ids m with hshape | hshape <;>
        rw [hshape] at hin <;> simp at hin
    · simp at hB

/-- C6 witness: with a resolved mirror id and a store that rejects the
update because the page is archived, the item is counted as
skipped-archived after a single update request. -/
theorem C6_witness :
    processItem cfgDefault oracleArchived [("s1", "m1")] "s1" =
      .ok ([("s1", "m1")], .skippedArchivedUpdate, [Op.patchProps "m1"]) :=
  (C6_archived_update_skipped cfgDefault oracleArchived [("s1", "m1")] "s1" "m1"
    archErr).1 rfl rfl (by decide)

/-- Counter bumps do not touch the newest-edited tracker. -/
theorem applyOutcome_newest (s : LoopState) (o : ItemOutcome) :
    (applyOutcome s o).newest_edited = s.newest_edited := by
  cases o <;> rfl

/-- Counter bumps do not touch the persisted watermark. -/
theorem applyOutcome_last (s : LoopState) (o : ItemOutcome) :
    (applyOutcome s o).last_sync_time = s.last_sync_time := by
  cases o <;> rfl

/-- The periodic checkpoint does not change the newest-edited
tracker. -/
theorem checkpoint_newest (cfg : SyncConfig) (s : LoopState) :
    (checkpoint cfg s).newest_edited = s.newest_edited := by
  unfold checkpoint
  split
  · split
    · rfl
    · split
      · rfl
      · rfl
  · rfl

/-- The periodic checkpoint leaves the watermark unchanged in the
watermark-neutral full-sync mode, and also whenever no edit time has
been observed yet. -/
theorem checkpoint_last_unchanged (cfg : SyncConfig) (x : LoopState)
    (h : (cfg.force_full = true ∧ cfg.full_sync_update_checkpoint = false) ∨
      x.newest_edited = none) :
    (checkpoint cfg x).last_sync_time = x.last_sync_time := by
  unfold checkpoint
  split
  · rcases h with ⟨hff, hchk⟩ | hx
    · rw [if_neg (by simp [hff]), if_neg (by simp [hchk])]
    · rw [if_neg (by simp [hx]), if_neg (by simp [hx])]
  · rfl

/-- Field bookkeeping of one successful loop iteration: the new state
tracks the bumped newest-edited value, and its watermark is unchanged
in watermark-neutral full-sync mode as well as when no edit time has
been observed. -/
theorem syncStep_ok_fields (cfg : SyncConfig) (g : Oracle) (s s1 : LoopState)
    (p : SourcePage) (h : syncStep cfg g s p = .ok s1) :
    s1.newest_edited = bumpNewest s.newest_edited p.last_edited_time ∧
    (cfg.force_full = true → cfg.full_sync_update_checkpoint = false →
      s1.last_sync_time = s.last_sync_time) ∧
    (bumpNewest s.newest_edited p.last_edited_time = none →
      s1.last_sync_time = s.last_sync_time) := by
  cases hpi : processItem cfg g s.idx p.id with
  | error e => simp [syncStep, hpi] at h
  | ok r =>
    obtain ⟨idx1, outcome, ops1⟩ := r
    simp only [syncStep, hpi, Except.ok.injEq] at h
    refine ⟨?_, ?_, ?_⟩
    · rw [← h, checkpoint_newest]
      simp [applyOutcome_newest]
    · intro hff hchk
      rw [← h, checkpoint_last_unchanged _ _ (Or.inl ⟨hff, hchk⟩)]
      simp [applyOutcome_last]
    · intro hb
      rw [← h]
      rw [checkpoint_last_unchanged]
      · simp [applyOutcome_last]
      · right
        simp [applyOutcome_newest, hb]

/-- Folding the newest-edited tracker from a present value always
yields a present value. -/
theorem lastEdited_isSome_of_some : ∀ (items : List SourcePage) (t : Nat),
    (lastEdited (some t) items).isSome = true := by
  intro items
  induction items with
  | nil => intro t; rfl
  | cons p rest ih =>
    intro t
    cases hp : p.last_edited_time with
    | none => simpa [lastEdited, bumpNewest, hp] using ih t
    | some v => simpa [lastEdited, bumpNewest, hp] using ih v

/-- Characterization of the persisted watermark after a completed
run: it becomes the folded newest edit time exactly when the mode
flushes watermarks (incremental, or full sync with the checkpoint
flag) and some edit time was observed; otherwise it is unchanged. -/
theorem syncItems_last_sync (cfg : SyncConfig) (g : Oracle) :
    ∀ (items : List SourcePage) (s f : LoopState),
      syncItems cfg g s items = .ok f →
      f.last_sync_time =
        if (cfg.force_full = false ∨ cfg.full_sync_update_checkpoint = true) ∧
            (lastEdited s.newest_edited items).isSome = true
        then lastEdited s.newest_edited items
        else s.last_sync_time := by
  intro items
  induction items with
  | nil =>
    intro s f h
    simp only [syncItems, Except.ok.injEq] at h
    subst h
    unfold finalize
    by_cases h1 : s.newest_edited.isSome = true
    · rw [if_pos h1]
      by_cases h2 : cfg.force_full = false
      · rw [if_pos h2]
        rw [if_pos ⟨Or.inl h2, by simpa [lastEdited] using h1⟩]
        rfl
      · rw [if_neg h2]
        by_cases h3 : cfg.full_sync_update_checkpoint = true
        · rw [if_pos h3]
          rw [if_pos ⟨Or.inr h3, by simpa [lastEdited] using h1⟩]
          rfl
        · rw [if_neg h3]
          rw [if_neg (by
            rintro ⟨hc, -⟩
            rcases hc with hc | hc
            · exact h2 hc
            · exact h3 hc)]
    · rw [if_neg h1]
      rw [if_neg (by
        rintro ⟨-, hs⟩
        exact h1 (by simpa [lastEdited] using hs))]
  | cons p rest ih =>
    intro s f h
    cases hstep : syncStep cfg g s p with
    | error e => simp [syncItems, hstep] at h
    | ok s1 =>
      simp only [syncItems, hstep] at h
      obtain ⟨hnew, hneutral, hnone⟩ := syncStep_ok_fields cfg g s s1 p hstep
      have hrec := ih s1 f h
      have hle : lastEdited s.newest_edited (p :: rest) =
          lastEdited (bumpNewest s.newest_edited p.last_edited_time) rest := rfl
      rw [hle]
      rw [hnew] at hrec
      by_cases hC : (cfg.force_full = false ∨ cfg.full_sync_update_checkpoint = true) ∧
          (lastEdited (bumpNewest s.newest_edited p.last_edited_time) rest).isSome = true
      · rw [if_pos hC] at hrec
        rw [if_pos hC]
        exact hrec
      · rw [if_neg hC] at hrec
        rw [if_neg hC]
        rw [hrec]
        by_cases hmode : cfg.force_full = false ∨ cfg.full_sync_update_checkpoint = true
        · have hsome : (lastEdited (bumpNewest s.newest_edited p.last_edited_time)
              rest).isSome = false := by
            cases hls : (lastEdited (bumpNewest s.newest_edited p.last_edited_time)
                rest).isSome with
            | false => rfl
            | true => exact (hC ⟨hmode, hls⟩).elim
          have hbn : bumpNewest s.newest_edited p.last_edited_time = none := by
            cases hb : bumpNewest s.newest_edited p.last_edited_time with
            | none => rfl
            | some t =>
              rw [hb, lastEdited_isSome_of_some] at hsome
              exact absurd hsome (by decide)
          exact hnone hbn
        · push_neg at hmode
          obtain ⟨hff, hchk⟩ := hmode
          have hff2 : cfg.force_full = true := by
            cases hcf : cfg.force_full
            · exact absurd hcf hff
            · rfl
          have hchk2 : cfg.full_sync_update_checkpoint = false := by
            cases hcc : cfg.full_sync_update_checkpoint
            · rfl
            · exact absurd hcc hchk
          exact hneutral hff2 hchk2

/-- The folded newest edit time is the edit time of one of the items,
when every item has one and there is at least one item. -/
theorem lastEdited_mem : ∀ (items : List SourcePage) (cur : Option Nat),
    (∀ p ∈ items, p.last_edited_time.isSome = true) → items ≠ [] →
    ∃ q ∈ items, lastEdited cur items = q.last_edited_time := by
  intro items
  induction items with
  | nil => intro cur _ hne; exact absurd rfl hne
  | cons p rest ih =>
    intro cur hsome _
    by_cases hr : rest = []
    · subst hr
      refine ⟨p, by simp, ?_⟩
      rcases hp : p.last_edited_time with _ | tp
      · exact absurd (hsome p (by simp)) (by simp [hp])
      · simp [lastEdited, bumpNewest, hp]
    · obtain ⟨q, hq, hlast⟩ := ih (bumpNewest cur p.last_edited_time)
        (fun q hq => hsome q (by simp [hq])) hr
      exact ⟨q, by simp [hq], by simpa [lastEdited] using hlast⟩

/-- The folded newest edit time of an ascending item list is present,
is the edit time of one of the items, and bounds every edit time from
above. -/
theorem lastEdited_max : ∀ (items : List SourcePage) (cur : Option Nat),
    (∀ p ∈ items, p.last_edited_time.isSome = true) →
    items.Pairwise
      (fun a b => a.last_edited_time.getD 0 ≤ b.last_edited_time.getD 0) →
    items ≠ [] →
    ∃ tmax, lastEdited cur items = some tmax ∧
      some tmax ∈ items.map SourcePage.last_edited_time ∧
      ∀ p ∈ items, p.last_edited_time.getD 0 ≤ tmax := by
  intro items
  induction items with
  | nil => intro cur _ _ hne; exact absurd rfl hne
  | cons p rest ih =>
    intro cur hsome hpw _
    rcases hp : p.last_edited_time with _ | tp
    · exact absurd (hsome p (by simp)) (by simp [hp])
    · by_cases hr : rest = []
      · subst hr
        refine ⟨tp, by simp [lastEdited, bumpNewest, hp], by simp [hp], ?_⟩
        intro p2 hp2
        simp at hp2
        subst hp2
        simp [hp]
      · obtain ⟨tmax, h1, h2, h3⟩ := ih (bumpNewest cur p.last_edited_time)
          (fun q hq => hsome q (by simp [hq]))
          (List.Pairwise.of_cons hpw) hr
        refine ⟨tmax, by simpa [lastEdited] using h1, by simp [h2], ?_⟩
        intro p2 hp2
        rcases List.mem_cons.mp hp2 with rfl | hmem
        · obtain ⟨q, hq, hqt⟩ := List.mem_map.mp h2
          have hrel := (List.pairwise_cons.mp hpw).1 q hq
          have hq0 : q.last_edited_time.getD 0 = tmax := by rw [hqt]; rfl
          rw [← hq0]
          exact hrel
        · exact h3 p2 hmem

/-- C2: after a completed incremental run over store-filtered,
ascending-ordered items, the persisted watermark is unchanged when no
items were processed, and otherwise equals the maximum edit time of
the processed items, which is never below the prior watermark. -/
theorem C2_watermark_monotone (cfg : SyncConfig) (g : Oracle)
    (idx0 : List (String × String)) (last0 : Option Nat)
    (items : List SourcePage) (f : LoopState)
    (hincr : cfg.force_full = false)
    (hrun : syncItems cfg g (initState idx0 last0) items = .ok f)
    (hsome : ∀ p ∈ items, p.last_edited_time.isSome = true)
    (hsorted : items.Pairwise
      (fun a b => a.last_edited_time.getD 0 ≤ b.last_edited_time.getD 0))
    (hafter : ∀ t0, last0 = some t0 → ∀ p ∈ items, t0 < p.last_edited_time.getD 0) :
    (items = [] → f.last_sync_time = last0) ∧
    (items ≠ [] → ∃ tmax, f.last_sync_time = some tmax ∧
      some tmax ∈ items.map SourcePage.last_edited_time ∧
      (∀ p ∈ items, p.last_edited_time.getD 0 ≤ tmax) ∧
      (∀ t0, last0 = some t0 → t0 ≤ tmax)) := by
  have hchar := syncItems_last_sync cfg g items (initState idx0 last0) f hrun
  constructor
  · intro he
    subst he
    simpa [initState, lastEdited] using hchar
  · intro hne
    obtain ⟨tmax, h1, h2, h3⟩ := lastEdited_max items none hsome hsorted hne
    have hinit : (initState idx0 last0).newest_edited = none := rfl
    rw [hinit, h1] at hchar
    rw [if_pos ⟨Or.inl hincr, rfl⟩] at hchar
    refine ⟨tmax, hchar, h2, h3, ?_⟩
    intro t0 ht0
    obtain ⟨q, hq, hqt⟩ := List.mem_map.mp h2
    have hlt := hafter t0 ht0 q hq
    have hq0 : q.last_edited_time.getD 0 = tmax := by rw [hqt]; rfl
    omega

/-- C2 witness: the demo incremental run over two ascending items past
the watermark 3 lands on their maximum edit time 7. -/
theorem C2_witness :
    ∃ tmax, demoFinal.last_sync_time = some tmax ∧
      some tmax ∈ demoItems.map SourcePage.last_edited_time ∧
      (∀ p ∈ demoItems, p.last_edited_time.getD 0 ≤ tmax) ∧
      (∀ t0, (some 3 : Option Nat) = some t0 → t0 ≤ tmax) := by
  refine (C2_watermark_monotone cfgDefault oracleOk [] (some 3) demoItems demoFinal
    rfl rfl (by decide) (by decide) ?_).2 (by decide)
  intro t0 ht0
  injection ht0 with h2
  subst h2
  decide

/-- C9: under the default configuration a full-sync pass leaves the
persisted watermark unchanged regardless of how many items were
processed, while a completed incremental pass that processes items
sets it to an observed edit time, strictly advancing it past any prior
watermark the processed items are strictly after. -/
theorem C9_full_sync_watermark_neutral (cfg : SyncConfig) (g : Oracle)
    (idx0 : List (String × String)) (last0 : Option Nat)
    (items : List SourcePage) (f : LoopState) :
    (cfg.force_full = true → cfg.full_sync_update_checkpoint = env_bool none false →
      syncItems cfg g (initState idx0 last0) items = .ok f →
      f.last_sync_time = last0)
    ∧ (cfg.force_full = false →
      syncItems cfg g (initState idx0 last0) items = .ok f →
      items ≠ [] → (∀ p ∈ items, p.last_edited_time.isSome = true) →
      ∃ t, f.last_sync_time = some t ∧
        ∀ t0, last0 = some t0 →
          (∀ p ∈ items, t0 < p.last_edited_time.getD 0) → t0 < t) := by
  constructor
  · intro hff hchk hrun
    have hchk2 : cfg.full_sync_update_checkpoint = false := by
      simpa [env_bool] using hchk
    have hchar := syncItems_last_sync cfg g items (initState idx0 last0) f hrun
    rw [if_neg (by
      rintro ⟨hm, -⟩
      rcases hm with hm | hm
      · exact absurd hm (by simp [hff])
      · exact absurd hm (by simp [hchk2]))] at hchar
    simpa [initState] using hchar
  · intro hincr hrun hne hsome
    have hchar := syncItems_last_sync cfg g items (initState idx0 last0) f hrun
    obtain ⟨q, hq, hlast⟩ := lastEdited_mem items none hsome hne
    rcases hqt : q.last_edited_time with _ | tq
    · exact absurd (hsome q hq) (by simp [hqt])
    · have hinit : (initState idx0 last0).newest_edited = none := rfl
      rw [hinit, hlast, hqt] at hchar
      rw [if_pos ⟨Or.inl hincr, rfl⟩] at hchar
      refine ⟨tq, hchar, ?_⟩
      intro t0 ht0 hgt
      have hq2 := hgt q hq
      rw [hqt] at hq2
      simpa using hq2

/-- C9 witness: the demo full-sync run under the default checkpoint
flag leaves the persisted watermark at its prior value 3. -/
theorem C9_witness : demoFullFinal.last_sync_time = some 3 :=
  (C9_full_sync_watermark_neutral cfgFull oracleOk [] (some 3) demoItems
    demoFullFinal).1 rfl rfl rfl

/-- Looking up a key that the filter predicate excludes from the index
always misses. -/
theorem lookup_filter_not_mem (sid : String) (origin_ids : List String)
    (h : sid ∉ origin_ids) :
    ∀ idx : List (String × String),
      (idx.filter (fun e => decide (e.1 ∈ origin_ids))).lookup sid = none := by
  intro idx
  induction idx with
  | nil => rfl
  | cons e rest ih =>
    by_cases he : e.1 ∈ origin_ids
    · rw [List.filter_cons_of_pos (by simpa using he)]
      have hne : (sid == e.1) = false := by
        apply beq_false_of_ne
        intro hEq
        exact h (hEq ▸ he)
      simp [List.lookup, hne, ih]
    · rw [List.filter_cons_of_neg (by simpa using he)]
      exact ih

/-- C8: during an orphan-cleanup pass, a mirror record with an empty
origin relation is left untouched; a mirror record whose referenced
source id is absent from the loaded source-id set is archived (and the
pass never issues a hard delete); and the pruned index maps no source
id that is absent from the source-id set — so a deleted source record
with a mirror in the scanned collection is archived and de-indexed
after one pass. -/
theorem C8_orphan_cleanup (origin_ids : List String) (mirrors : List MirrorPage)
    (idx : List (String × String)) (m : MirrorPage) (sid : String) :
    (m.relation_ids = [] → cleanupPageOps origin_ids m = [])
    ∧ (m.relation_ids.head? = some (some sid) → sid ∉ origin_ids →
      cleanupPageOps origin_ids m = [Op.setArchived m.id true])
    ∧ (∀ x, Op.deletePage x ∉ (cleanup_orphans_run origin_ids mirrors idx).1)
    ∧ (m ∈ mirrors → m.relation_ids.head? = some (some sid) → sid ∉ origin_ids →
      Op.setArchived m.id true ∈ (cleanup_orphans_run origin_ids mirrors idx).1)
    ∧ (sid ∉ origin_ids →
      ((cleanup_orphans_run origin_ids mirrors idx).2).lookup sid = none) := by
  have harch : m.relation_ids.head? = some (some sid) → sid ∉ origin_ids →
      cleanupPageOps origin_ids m = [Op.setArchived m.id true] := by
    intro hhead hnot
    cases hrel : m.relation_ids with
    | nil => rw [hrel] at hhead; cases hhead
    | cons first rest =>
      rw [hrel] at hhead
      simp only [List.head?_cons, Option.some.injEq] at hhead
      subst hhead
      simp [cleanupPageOps, hrel, hnot]
  refine ⟨?_, harch, ?_, ?_, ?_⟩
  · intro hrel
    simp [cleanupPageOps, hrel]
  · intro x hmem
    simp only [cleanup_orphans_run] at hmem
    rcases List.mem_append.mp hmem with hA | hB
    · rcases List.mem_flatten.mp hA with ⟨l, hl, hin⟩
      rcases List.mem_map.mp hl with ⟨m2, hm2, rfl⟩
      rcases cleanupPageOps_shape origin_ids m2 with hshape | hshape <;>
        rw [hshape] at hin <;> simp at hin
    · simp at hB
  · intro hm hhead hnot
    simp only [cleanup_orphans_run]
    apply List.mem_append_left
    apply List.mem_flatten.mpr
    exact ⟨cleanupPageOps origin_ids m, List.mem_map_of_mem _ hm,
      by rw [harch hhead hnot]; simp⟩
  · intro hnot
    simp only [cleanup_orphans_run]
    exact lookup_filter_not_mem sid origin_ids hnot idx

/-- C8 witness: a mirror of the deleted source s2 is archived and its
index entry pruned in one pass. -/
theorem C8_witness :
    Op.setArchived "m2" true ∈
      (cleanup_orphans_run ["s1"] [{ id := "m2", relation_ids := [some "s2"] }]
        [("s2", "m2")]).1 ∧
    ((cleanup_orphans_run ["s1"] [{ id := "m2", relation_ids := [some "s2"] }]
        [("s2", "m2")]).2).lookup "s2" = none := by
  have h := C8_orphan_cleanup ["s1"] [{ id := "m2", relation_ids := [some "s2"] }]
    [("s2", "m2")] { id := "m2", relation_ids := [some "s2"] } "s2"
  exact ⟨h.2.2.2.1 (by simp) rfl (by decide), h.2.2.2.2 (by decide)⟩

end SyncEspelho
